import Mathlib

set_option autoImplicit false

namespace TaskApi

/-! Shallow embedding of the task-management REST API
    (Express + Mongoose, TypeScript sources under src/).

    Task documents and the task controllers are translated from
    src/src/models/Task.ts (which contains both the mongoose Task schema and
    the task controller functions).  The persistence layer (a mongo
    collection accessed through mongoose) is modelled as a `List` of
    documents; a faulted database connection, whose awaited operations
    reject, is modelled by the `Except String` layer of `Db`.
    ObjectIds are modelled as `Nat`, `Date` timestamps as `Int`
    (milliseconds since epoch).  `req.user`, attached by the `protect`
    authentication middleware, is modelled as an `Option UserId` argument. -/

deriving instance DecidableEq for Except

abbrev UserId := Nat
abbrev TaskId := Nat

/-- The Task document of src/src/models/Task.ts (interface ITask):
    title, description (default ""), completed (default false), priority
    (enum low/medium/high as the stored string, default "medium"), optional
    dueDate, owning user reference, and the mongoose `timestamps: true`
    fields createdAt/updatedAt. -/
structure Task where
  id : TaskId
  title : String
  description : String
  completed : Bool
  priority : String
  dueDate : Option Int
  user : UserId
  createdAt : Int
  updatedAt : Int
  deriving DecidableEq, Repr

/-- The JSON response envelope every controller sends:
    HTTP status, `success` flag, optional `message`, optional `data`
    payload. -/
structure ApiResult (α : Type) where
  status : Nat
  success : Bool
  message : Option String := none
  data : Option α := none
  deriving DecidableEq, Repr

/-- A handle to the task collection: either the healthy list of documents,
    or a faulted connection whose awaited operations reject with an error. -/
abbrev Db := Except String (List Task)

/-- Replace the first element satisfying `p` (mongoose `document.save()`
    writes back the single document with the matching `_id`). -/
def replaceFirst {α : Type} (p : α → Bool) (y : α) : List α → List α
  | [] => []
  | x :: xs => if p x then y :: xs else x :: replaceFirst p y xs

/-- `Task.findOne({_id, user})`: the first document matching both the id and
    the owner, as used by getTask and toggleTaskCompletion. -/
def findOneTask (tid : TaskId) (uid : UserId) (ts : List Task) : Option Task :=
  ts.find? (fun t => t.id == tid && t.user == uid)

/-- The query-string parameters of GET /api/tasks after parsing
    (`page` and `limit` are `parseInt`ed with defaults 1 and 10). -/
structure TaskQuery where
  completed : Option String := none
  priority : Option String := none
  search : Option String := none
  page : Nat := 1
  limit : Nat := 10
  deriving DecidableEq, Repr

/-- Case-insensitive substring test, modelling the
    `$regex: search, $options: "i"` match on a field (regex
    metacharacters in the search string are out of scope). -/
def containsCI (hay needle : String) : Bool :=
  2 ≤ ((hay.toLower).splitOn (needle.toLower)).length

/-- The filter object built by getTasks: always scoped to the caller
    (`user: req.user.id`); `completed` added when the parameter is present
    (compared to the string "true"); `priority` added when truthy; a
    case-insensitive `$or` regex over title/description when `search` is a
    truthy string. -/
def matchesFilter (uid : UserId) (q : TaskQuery) (t : Task) : Bool :=
  t.user == uid
    && (match q.completed with
        | none => true
        | some c => t.completed == (c == "true"))
    && (match q.priority with
        | none => true
        | some p => if p == "" then true else t.priority == p)
    && (match q.search with
        | none => true
        | some s => if s == "" then true else containsCI t.title s || containsCI t.description s)

/-- Insert into a list kept sorted by `createdAt` descending. -/
def sortInsert (t : Task) : List Task → List Task
  | [] => [t]
  | x :: xs => if x.createdAt ≤ t.createdAt then t :: x :: xs else x :: sortInsert t xs

/-- `.sort({ createdAt: -1 })`: newest first. -/
def sortByCreatedAtDesc (ts : List Task) : List Task :=
  ts.foldr sortInsert []

/-- The pagination metadata of the GET /api/tasks response. -/
structure Pagination where
  current : Nat
  pages : Nat
  total : Nat
  limit : Nat
  deriving DecidableEq, Repr

/-- The `data` payload of GET /api/tasks. -/
structure TasksPayload where
  tasks : List Task
  pagination : Pagination
  deriving DecidableEq, Repr

/-- getTasks (GET /api/tasks).  Unlike every other task controller this
    function has no try/catch, so a rejected persistence operation escapes
    it: the fault is the `Except.error` of the result.  `pages` is
    `Math.ceil(total / limitNum)`, here `(total + limit - 1) / limit` for
    `limit ≥ 1`. -/
def getTasks (auth : Option UserId) (q : TaskQuery) (db : Db) :
    Except String (ApiResult TasksPayload) :=
  match auth with
  | none => Except.ok { status := 401, success := false, message := some "User not found" }
  | some uid =>
    match db with
    | Except.error e => Except.error e
    | Except.ok allTasks =>
      let skip := (q.page - 1) * q.limit
      let matching := allTasks.filter (matchesFilter uid q)
      let tasks := ((sortByCreatedAtDesc matching).drop skip).take q.limit
      let total := matching.length
      Except.ok
        { status := 200, success := true,
          data := some
            { tasks := tasks,
              pagination :=
                { current := q.page, pages := (total + q.limit - 1) / q.limit,
                  total := total, limit := q.limit } } }

/-- The request body of POST /api/tasks as the controller sees it (after
    validation).  The controller destructures only title, description,
    priority and dueDate; a `user` or `completed` field in the body is
    never read. -/
structure CreateBody where
  title : String
  description : Option String := none
  priority : Option String := none
  dueDate : Option Int := none
  user : Option UserId := none
  completed : Option Bool := none
  deriving DecidableEq, Repr

/-- `Task.create({title, description, priority, dueDate, user: req.user.id})`
    with the schema defaults: description "" when undefined, priority
    "medium" when undefined, completed false; timestamps set to `now`. -/
def mkTask (newId : TaskId) (uid : UserId) (b : CreateBody) (now : Int) : Task :=
  { id := newId, title := b.title, description := b.description.getD "",
    completed := false, priority := b.priority.getD "medium",
    dueDate := b.dueDate, user := uid, createdAt := now, updatedAt := now }

/-- createTask (POST /api/tasks).  The owner of the created document is
    always `req.user.id`; the whole body of the try is downgraded to a
    generic 500 on a persistence fault. -/
def createTask (auth : Option UserId) (b : CreateBody) (newId : TaskId) (now : Int)
    (db : Db) : ApiResult Task × Db :=
  match auth with
  | none => ({ status := 401, success := false, message := some "User not found" }, db)
  | some uid =>
    match db with
    | Except.error _ =>
      ({ status := 500, success := false, message := some "Server error while creating task" }, db)
    | Except.ok ts =>
      let t := mkTask newId uid b now
      ({ status := 201, success := true, message := some "Task created successfully",
         data := some t }, Except.ok (ts ++ [t]))

/-- The request body of PUT /api/tasks/:id (updateTaskValidation accepts an
    optional boolean `completed`, but the controller never reads it). -/
structure UpdateBody where
  title : Option String := none
  description : Option String := none
  completed : Option Bool := none
  priority : Option String := none
  dueDate : Option Int := none
  deriving DecidableEq, Repr

/-- The `$set` document of updateTask: the four destructured fields; fields
    that are `undefined` are stripped by mongoose and leave the document
    unchanged; `timestamps: true` refreshes updatedAt. -/
def applyUpdate (b : UpdateBody) (now : Int) (t : Task) : Task :=
  { t with
    title := b.title.getD t.title,
    description := b.description.getD t.description,
    priority := b.priority.getD t.priority,
    dueDate := match b.dueDate with | some d => some d | none => t.dueDate,
    updatedAt := now }

/-- `Task.findOneAndUpdate({_id, user}, {...}, {new: true})`: update the
    first document matching id and owner, returning the updated document. -/
def findOneAndUpdate (tid : TaskId) (uid : UserId) (b : UpdateBody) (now : Int) :
    List Task → Option Task × List Task
  | [] => (none, [])
  | t :: ts =>
    if t.id == tid && t.user == uid then
      (some (applyUpdate b now t), applyUpdate b now t :: ts)
    else
      let r := findOneAndUpdate tid uid b now ts
      (r.1, t :: r.2)

/-- updateTask (PUT /api/tasks/:id). -/
def updateTask (auth : Option UserId) (tid : TaskId) (b : UpdateBody) (now : Int)
    (db : Db) : ApiResult Task × Db :=
  match auth with
  | none => ({ status := 401, success := false, message := some "User not found" }, db)
  | some uid =>
    match db with
    | Except.error _ =>
      ({ status := 500, success := false, message := some "Server error while updating task" }, db)
    | Except.ok ts =>
      match findOneAndUpdate tid uid b now ts with
      | (none, _) => ({ status := 404, success := false, message := some "Task not found" }, db)
      | (some t2, ts2) =>
        ({ status := 200, success := true, message := some "Task updated successfully",
           data := some t2 }, Except.ok ts2)

/-- The object the delete controller passes as the *id* argument of
    `Task.findByIdAndDelete`. -/
structure DeleteFilter where
  _id : TaskId
  user : UserId
  deriving DecidableEq, Repr

/-- mongoose `castObjectId` applied to the argument of
    `findByIdAndDelete(id)`: an object carrying an `_id` field is cast to
    that field, so the `user` field of the filter object is discarded and
    the delete is not scoped to the owner. -/
def castObjectId (f : DeleteFilter) : TaskId :=
  f._id

/-- `findOneAndDelete({_id: cid})`: remove the first document with that id,
    returning it. -/
def findOneAndDeleteById (cid : TaskId) : List Task → Option Task × List Task
  | [] => (none, [])
  | t :: ts =>
    if t.id == cid then (some t, ts)
    else
      let r := findOneAndDeleteById cid ts
      (r.1, t :: r.2)

/-- `Task.findByIdAndDelete(obj)` = `findOneAndDelete({_id: castObjectId obj})`. -/
def findByIdAndDelete (f : DeleteFilter) (ts : List Task) : Option Task × List Task :=
  findOneAndDeleteById (castObjectId f) ts

/-- deleteTask (DELETE /api/tasks/:id), calling
    `Task.findByIdAndDelete({_id: req.params.id, user: req.user.id})`. -/
def deleteTask (auth : Option UserId) (tid : TaskId) (db : Db) : ApiResult Task × Db :=
  match auth with
  | none => ({ status := 401, success := false, message := some "User not found" }, db)
  | some uid =>
    match db with
    | Except.error _ =>
      ({ status := 500, success := false, message := some "Server error while deleting task" }, db)
    | Except.ok ts =>
      match findByIdAndDelete { _id := tid, user := uid } ts with
      | (none, _) => ({ status := 404, success := false, message := some "Task not found" }, db)
      | (some t, ts2) =>
        ({ status := 200, success := true, message := some "Task deleted successfully",
           data := some t }, Except.ok ts2)

/-- getTask (GET /api/tasks/:id), `Task.findOne({_id, user: req.user._id})`. -/
def getTask (auth : Option UserId) (tid : TaskId) (db : Db) : ApiResult Task × Db :=
  match auth with
  | none => ({ status := 401, success := false, message := some "User not found" }, db)
  | some uid =>
    match db with
    | Except.error _ =>
      ({ status := 500, success := false, message := some "Server error while fetching task" }, db)
    | Except.ok ts =>
      match findOneTask tid uid ts with
      | none => ({ status := 404, success := false, message := some "Task not found" }, db)
      | some t => ({ status := 200, success := true, data := some t }, db)

/-- toggleTaskCompletion (PATCH /api/tasks/:id/toggle):
    `findOne({_id, user})`, negate `completed`, `save()` (which also
    refreshes updatedAt). -/
def toggleTaskCompletion (auth : Option UserId) (tid : TaskId) (now : Int)
    (db : Db) : ApiResult Task × Db :=
  match auth with
  | none => ({ status := 401, success := false, message := some "User not found" }, db)
  | some uid =>
    match db with
    | Except.error _ =>
      ({ status := 500, success := false, message := some "Server error while toggling task" }, db)
    | Except.ok ts =>
      match findOneTask tid uid ts with
      | none => ({ status := 404, success := false, message := some "Task not found" }, db)
      | some t =>
        let t2 := { t with completed := !t.completed, updatedAt := now }
        ({ status := 200, success := true,
           message := some (if t2.completed then "Task marked as completed" else "Task marked as incomplete"),
           data := some t2 },
         Except.ok (replaceFirst (fun x => x.id == t2.id) t2 ts))

/-- The `data` payload of GET /api/tasks/stats. -/
structure StatsPayload where
  totalCompletedTasks : Nat
  totalIncompletedTasks : Nat
  totalTasks : Nat
  deriving DecidableEq, Repr

/-- getTaskStats (GET /api/tasks/stats): two scoped countDocuments calls. -/
def getTaskStats (auth : Option UserId) (db : Db) : ApiResult StatsPayload :=
  match auth with
  | none => { status := 401, success := false, message := some "User not found" }
  | some uid =>
    match db with
    | Except.error _ =>
      { status := 500, success := false, message := some "Server error while loading tasks stats" }
    | Except.ok ts =>
      let c := (ts.filter (fun t => t.completed && t.user == uid)).length
      let i := (ts.filter (fun t => !t.completed && t.user == uid)).length
      { status := 200, success := true, message := some "tasks stats fetched successfully",
        data := some { totalCompletedTasks := c, totalIncompletedTasks := i, totalTasks := c + i } }

/-! Auth side: src/src/controllers/authController.ts.  The User mongoose
    model (models/User.ts) is not among the source files; its schema shape,
    defaults, password hashing and `comparePassword` are modelled from the
    spec (sections 3 and 4.2). -/

/-- The User document: identifier, name, email, stored password hash, role,
    active flag.  Modelled from the spec for the fields the controllers
    use (models/User.ts is not under src/). -/
structure User where
  id : UserId
  name : String
  email : String
  password : String
  role : String
  isActive : Bool
  deriving DecidableEq, Repr

/-- Modelled from the spec (models/User.ts is not under src/): the one-way
    salted hash applied at creation/change time, abstracted as an injective
    tagging function. -/
def hashPassword (p : String) : String :=
  "bcrypt$" ++ p

/-- Modelled from the spec (models/User.ts is not under src/):
    `user.comparePassword(candidate)` verifies the candidate against the
    stored hash. -/
def comparePassword (stored candidate : String) : Bool :=
  stored == hashPassword candidate

/-- The signed bearer token of generateToken: payload carries the user's
    id, email and role, signed with the server secret. -/
def mkToken (secret : String) (u : User) : String :=
  "jwt$" ++ secret ++ "$" ++ toString u.id ++ "$" ++ u.email ++ "$" ++ u.role

/-- generateToken: throws when `process.env.JWT_SECRET` is undefined,
    otherwise signs the id/email/role payload. -/
def generateToken (secret : Option String) (u : User) : Except String String :=
  match secret with
  | none => Except.error "JWT_SECRET is not defined in environment variables"
  | some s => Except.ok (mkToken s u)

/-- The users collection handle, like `Db` for tasks. -/
abbrev UserDb := Except String (List User)

/-- The request body of POST /api/auth/register. -/
structure RegisterBody where
  name : String
  email : String
  password : String
  deriving DecidableEq, Repr

/-- The `data` payload of a successful register/login response. -/
structure AuthPayload where
  user : User
  token : String
  deriving DecidableEq, Repr

/-- register (POST /api/auth/register): reject with 400 when a user with
    the same email already exists, otherwise create the user (hashed
    password, defaults role "user" and isActive true per the spec data
    model) and sign a token.  generateToken runs after User.create, so a
    missing secret yields a 500 with the user already persisted.  A
    persistence fault anywhere in the try is downgraded to a generic 500. -/
def register (b : RegisterBody) (secret : Option String) (newId : UserId)
    (udb : UserDb) : ApiResult AuthPayload × UserDb :=
  match udb with
  | Except.error _ =>
    ({ status := 500, success := false, message := some "Server error during registration" }, udb)
  | Except.ok us =>
    match us.find? (fun u => u.email == b.email) with
    | some _ =>
      ({ status := 400, success := false,
         message := some "User with this email already exists" }, udb)
    | none =>
      let u : User :=
        { id := newId, name := b.name, email := b.email,
          password := hashPassword b.password, role := "user", isActive := true }
      match generateToken secret u with
      | Except.error _ =>
        ({ status := 500, success := false, message := some "Server error during registration" },
         Except.ok (us ++ [u]))
      | Except.ok tok =>
        ({ status := 201, success := true, message := some "User registered successfully",
           data := some { user := u, token := tok } }, Except.ok (us ++ [u]))

/-- login (POST /api/auth/login):
    `User.findOne({email, isActive: true}).select("+password")` — a missing
    user and a deactivated user both fall into the same `!user` branch;
    a failed comparePassword uses the identical message, so the three
    failure cases are indistinguishable to the client. -/
def login (email password : String) (secret : Option String) (udb : UserDb) :
    ApiResult AuthPayload :=
  match udb with
  | Except.error _ =>
    { status := 500, success := false, message := some "Server error during login" }
  | Except.ok us =>
    match us.find? (fun u => u.email == email && u.isActive) with
    | none =>
      { status := 401, success := false, message := some "Invalid email or password" }
    | some u =>
      if !comparePassword u.password password then
        { status := 401, success := false, message := some "Invalid email or password" }
      else
        match generateToken secret u with
        | Except.error _ =>
          { status := 500, success := false, message := some "Server error during login" }
        | Except.ok tok =>
          { status := 200, success := true, message := some "Login successful",
            data := some { user := u, token := tok } }

/-! Validation pipeline: src/src/middleware/validation.ts and the inline
    change-password rules of src/src/routes/authRoutes.ts.  Each
    express-validator chain contributes a list of failure messages;
    handleValidationErrors answers 400 when the collected list is
    non-empty.  `validator.js` `isLength` counts string length (surrogate
    pairs as one, which coincides with `String.length` on Lean strings). -/

/-- The JS line terminators, which the regex metacharacter `.` (no `s`
    flag) does not match. -/
def isJsLineTerminator (c : Char) : Bool :=
  c == '\n' || c == '\r' || c == '\u2028' || c == '\u2029'

/-- The characters a chain of `.` repetitions starting at position 0 can
    cover: everything before the first line terminator. -/
def beforeFirstLineTerminator (p : String) : List Char :=
  p.toList.takeWhile (fun c => !isJsLineTerminator c)

def isAsciiLower (c : Char) : Bool := 'a' ≤ c && c ≤ 'z'

def isAsciiUpper (c : Char) : Bool := 'A' ≤ c && c ≤ 'Z'

def isAsciiDigit (c : Char) : Bool := '0' ≤ c && c ≤ '9'

/-- The anchored JS regex of the password rule,
    `^(?=.*[a-z])(?=.*[A-Z])(?=.*\d)`: each lookahead demands its character
    class at a position reachable by `.*` from the start, i.e. before the
    first line terminator. -/
def passwordRegexMatches (p : String) : Bool :=
  let pre := beforeFirstLineTerminator p
  pre.any isAsciiLower && pre.any isAsciiUpper && pre.any isAsciiDigit

/-- The two password rules of registerValidation: isLength min 6, then the
    character-class regex; both failures are collected. -/
def passwordErrors (p : String) : List String :=
  (if p.length < 6 then ["Password must be at least 6 characters long"] else [])
    ++ (if passwordRegexMatches p then []
        else ["Password must contain at least one uppercase letter, one lowercase letter, and one number"])

/-- The newPassword rules of the change-password route in authRoutes.ts:
    the same two checks with their own messages. -/
def newPasswordErrors (p : String) : List String :=
  (if p.length < 6 then ["New password must be at least 6 characters long"] else [])
    ++ (if passwordRegexMatches p then []
        else ["New password must contain at least one uppercase letter, one lowercase letter, and one number"])

/-- The `.trim()` sanitizer: strip whitespace from both ends (written over
    the character list so it evaluates by kernel reduction). -/
def jsTrim (s : String) : String :=
  String.mk (((s.toList.dropWhile Char.isWhitespace).reverse.dropWhile Char.isWhitespace).reverse)

/-- The name rule of registerValidation: trimmed length between 2 and 50. -/
def nameErrors (n : String) : List String :=
  if 2 ≤ (jsTrim n).length && (jsTrim n).length ≤ 50 then []
  else ["Name must be between 2 and 50 characters"]

/-- The email rule of registerValidation; `validator.js` isEmail is
    abstracted to a coarse shape check (no claim depends on its fine
    grain). -/
def emailErrors (e : String) : List String :=
  if e.toList.any (fun c => c == '@') then [] else ["Please provide a valid email"]

/-- registerValidation: the collected failures of the three field chains. -/
def registerValidationErrors (b : RegisterBody) : List String :=
  nameErrors b.name ++ emailErrors b.email ++ passwordErrors b.password

/-- A dueDate request value: absent, or present; a present value either
    fails isISO8601, or resolves to a timestamp (ISO-8601 string parsing is
    abstracted to the resolved timestamp). -/
abbrev DueField := Option (Option Int)

/-- The dueDate chain shared verbatim by createTaskValidation and
    updateTaskValidation: `.optional()` skips an absent field; isISO8601
    reports a non-parseable value (the custom check then compares
    `new Date(value) <= new Date()` against NaN, which is false); a
    resolved timestamp is rejected when it is at or before `now`, the
    wall-clock instant at which the validator executes. -/
def dueDateErrors (due : DueField) (now : Int) : List String :=
  match due with
  | none => []
  | some none => ["Due date must be a valid date"]
  | some (some d) => if d ≤ now then ["Due date must be in the future"] else []

/-- The create-task body as the validation middleware sees it (raw request
    fields; a missing title is undefined and fails its length check). -/
structure RawCreateBody where
  title : Option String := none
  description : Option String := none
  priority : Option String := none
  dueDate : DueField := none
  deriving DecidableEq, Repr

/-- The title chain of createTaskValidation: trim, then length 1..100. -/
def createTitleErrors (t : Option String) : List String :=
  match t with
  | none => ["Title is required and must not exceed 100 characters"]
  | some s =>
    if 1 ≤ (jsTrim s).length && (jsTrim s).length ≤ 100 then []
    else ["Title is required and must not exceed 100 characters"]

/-- The optional description chain: trim, max 500. -/
def descriptionErrors (d : Option String) : List String :=
  match d with
  | none => []
  | some s =>
    if (jsTrim s).length ≤ 500 then [] else ["Description must not exceed 500 characters"]

/-- The optional priority chain: isIn low/medium/high. -/
def priorityErrors (p : Option String) : List String :=
  match p with
  | none => []
  | some s =>
    if s == "low" || s == "medium" || s == "high" then []
    else ["Priority must be low, medium, or high"]

/-- createTaskValidation: all failures of the four chains, collected in
    declaration order; handleValidationErrors answers 400 when non-empty. -/
def createTaskValidationErrors (b : RawCreateBody) (now : Int) : List String :=
  createTitleErrors b.title ++ descriptionErrors b.description
    ++ priorityErrors b.priority ++ dueDateErrors b.dueDate now

/-- The update-task body as the validation middleware sees it. -/
structure RawUpdateBody where
  title : Option String := none
  description : Option String := none
  completed : Option String := none
  priority : Option String := none
  dueDate : DueField := none
  deriving DecidableEq, Repr

/-- The optional title chain of updateTaskValidation (same bounds, optional). -/
def updateTitleErrors (t : Option String) : List String :=
  match t with
  | none => []
  | some s =>
    if 1 ≤ (jsTrim s).length && (jsTrim s).length ≤ 100 then []
    else ["Title must not exceed 100 characters"]

/-- The optional completed chain: validator.js isBoolean on the stringified
    value. -/
def completedErrors (c : Option String) : List String :=
  match c with
  | none => []
  | some s =>
    if s == "true" || s == "false" || s == "0" || s == "1" then []
    else ["Completed must be a boolean value"]

/-- updateTaskValidation: the five chains collected in declaration order. -/
def updateTaskValidationErrors (b : RawUpdateBody) (now : Int) : List String :=
  updateTitleErrors b.title ++ descriptionErrors b.description
    ++ completedErrors b.completed ++ priorityErrors b.priority
    ++ dueDateErrors b.dueDate now

/-! Spec-side definitions and concrete fixtures used by the theorems. -/

/-- The password acceptance condition exactly as the specification words
    it: length at least 6 and at least one lowercase letter, one uppercase
    letter and one digit anywhere in the password.  Stated for comparison
    with the implemented rule `passwordErrors`. -/
def specPasswordOk (p : String) : Bool :=
  6 ≤ p.length && p.toList.any isAsciiLower
    && p.toList.any isAsciiUpper && p.toList.any isAsciiDigit

/-- The frame a task update is allowed to leave intact: completed, owner,
    id and createdAt never change (only title, description, priority,
    dueDate and the updatedAt timestamp may differ). -/
def frameRel (a b : Task) : Prop :=
  b.completed = a.completed ∧ b.user = a.user ∧ b.id = a.id ∧ b.createdAt = a.createdAt

/-- A task owned by user 2, used to probe cross-user access with caller 1. -/
def crossTask : Task :=
  { id := 1, title := "t", description := "", completed := false, priority := "medium",
    dueDate := none, user := 2, createdAt := 0, updatedAt := 0 }

/-- A task owned by user 5 with updatedAt 0, used to probe the update frame. -/
def frameTask : Task :=
  { id := 1, title := "a", description := "", completed := false, priority := "medium",
    dueDate := none, user := 5, createdAt := 0, updatedAt := 0 }

/-- A completed task owned by user 4, used to probe toggling. -/
def toggleFixture : Task :=
  { id := 1, title := "x", description := "", completed := true, priority := "high",
    dueDate := none, user := 4, createdAt := 2, updatedAt := 2 }

/-- The i-th of fifteen tasks owned by user 3, createdAt increasing in i. -/
def sampleTask (i : Nat) : Task :=
  { id := i, title := "task", description := "", completed := false, priority := "medium",
    dueDate := none, user := 3, createdAt := Int.ofNat i, updatedAt := 0 }

/-- Fifteen tasks owned by user 3. -/
def tasks15 : List Task :=
  (List.range 15).map sampleTask

/-- The payload GET /api/tasks?page=2&limit=10 produces over `tasks15`:
    the five oldest tasks (ids 4..0 in createdAt-descending order) and
    pagination 2 of 2 pages, 15 total, limit 10. -/
def pageWitnessPayload : TasksPayload :=
  { tasks := [sampleTask 4, sampleTask 3, sampleTask 2, sampleTask 1, sampleTask 0],
    pagination := { current := 2, pages := 2, total := 15, limit := 10 } }

/-- An active user whose stored hash is of the password "Right1". -/
def aliceActive : User :=
  { id := 1, name := "Alice", email := "alice@x.com", password := hashPassword "Right1",
    role := "user", isActive := true }

/-- A deactivated user whose stored hash is of the password "Right1". -/
def bobInactive : User :=
  { id := 2, name := "Bob", email := "bob@x.com", password := hashPassword "Right1",
    role := "user", isActive := false }

/-- The 401 response login sends in every failure case. -/
def invalidLogin : ApiResult AuthPayload :=
  { status := 401, success := false, message := some "Invalid email or password", data := none }

/-- A create body with a valid title and a dueDate resolving to timestamp 5. -/
def rawCreateFix : RawCreateBody :=
  { title := some "Buy milk", dueDate := some (some 5) }

/-- An update body with a dueDate resolving to timestamp 5. -/
def rawUpdateFix : RawUpdateBody :=
  { dueDate := some (some 5) }

/-! General lemmas about the list combinators of the embedding. -/

theorem takeWhile_self_of_all {α : Type} (q : α → Bool) (l : List α)
    (h : ∀ x ∈ l, q x = true) : l.takeWhile q = l := by
  induction l with
  | nil => rfl
  | cons x xs ih =>
    rw [List.takeWhile_cons_of_pos (h x (List.mem_cons_self x xs))]
    rw [ih (fun y hy => h y (List.mem_cons_of_mem x hy))]

theorem mem_of_mem_takeWhile {α : Type} (q : α → Bool) (l : List α) (a : α)
    (h : a ∈ l.takeWhile q) : a ∈ l := by
  induction l with
  | nil => simp [List.takeWhile] at h
  | cons x xs ih =>
    by_cases hx : q x
    · rw [List.takeWhile_cons_of_pos hx] at h
      rcases List.mem_cons.1 h with rfl | h2
      · exact List.mem_cons_self a xs
      · exact List.mem_cons_of_mem x (ih h2)
    · rw [List.takeWhile_cons_of_neg hx] at h
      simp at h

theorem find?_split {α : Type} (p : α → Bool) (l : List α) (a : α)
    (h : l.find? p = some a) :
    ∃ l1 l2, l = l1 ++ a :: l2 ∧ ∀ x ∈ l1, p x = false := by
  induction l with
  | nil => simp at h
  | cons x xs ih =>
    by_cases hx : p x
    · rw [List.find?_cons_of_pos _ hx] at h
      obtain rfl : x = a := Option.some.inj h
      exact ⟨[], xs, rfl, by simp⟩
    · rw [List.find?_cons_of_neg _ hx] at h
      obtain ⟨l1, l2, heq, hall⟩ := ih h
      refine ⟨x :: l1, l2, by simp [heq], ?_⟩
      intro y hy
      rcases List.mem_cons.1 hy with rfl | hy2
      · exact Bool.eq_false_iff.2 hx
      · exact hall y hy2

theorem find?_append_cons {α : Type} (p : α → Bool) (l1 l2 : List α) (a : α)
    (hl1 : ∀ x ∈ l1, p x = false) (ha : p a = true) :
    (l1 ++ a :: l2).find? p = some a := by
  induction l1 with
  | nil => simp [List.find?_cons_of_pos _ ha]
  | cons x xs ih =>
    have hx : p x = false := hl1 x (List.mem_cons_self x xs)
    simp only [List.cons_append]
    rw [List.find?_cons_of_neg _ (by simp [hx])]
    exact ih (fun y hy => hl1 y (List.mem_cons_of_mem x hy))

theorem replaceFirst_append_cons {α : Type} (p : α → Bool) (y a : α) (l1 l2 : List α)
    (hl1 : ∀ x ∈ l1, p x = false) (ha : p a = true) :
    replaceFirst p y (l1 ++ a :: l2) = l1 ++ y :: l2 := by
  induction l1 with
  | nil => simp [replaceFirst, ha]
  | cons x xs ih =>
    have hx : p x = false := hl1 x (List.mem_cons_self x xs)
    simp only [List.cons_append, replaceFirst, hx]
    simp [ih (fun z hz => hl1 z (List.mem_cons_of_mem x hz))]

theorem nodup_ids_split (l1 l2 : List Task) (t : Task)
    (h : (((l1 ++ t :: l2).map (fun x => x.id))).Nodup) :
    ∀ x ∈ l1, (x.id == t.id) = false := by
  intro x hx
  rw [List.map_append, List.nodup_append] at h
  have hmem : x.id ∈ l1.map (fun x => x.id) := List.mem_map_of_mem _ hx
  have hne : x.id ∉ (t :: l2).map (fun x => x.id) := h.2.2 hmem
  simp only [List.map_cons, List.mem_cons] at hne
  push_neg at hne
  exact beq_eq_false_iff_ne.2 hne.1

theorem length_sortInsert (t : Task) (l : List Task) :
    (sortInsert t l).length = l.length + 1 := by
  induction l with
  | nil => rfl
  | cons x xs ih =>
    by_cases hx : x.createdAt ≤ t.createdAt <;> simp [sortInsert, hx, ih]

theorem length_sortByCreatedAtDesc (l : List Task) :
    (sortByCreatedAtDesc l).length = l.length := by
  induction l with
  | nil => rfl
  | cons x xs ih =>
    simp only [sortByCreatedAtDesc, List.foldr_cons] at ih ⊢
    rw [length_sortInsert, ih]
    simp

theorem forall₂_frameRel_refl (l : List Task) : List.Forall₂ frameRel l l := by
  induction l with
  | nil => exact List.Forall₂.nil
  | cons x xs ih => exact List.Forall₂.cons ⟨rfl, rfl, rfl, rfl⟩ ih

theorem findOneAndUpdate_frame (tid : TaskId) (uid : UserId) (b : UpdateBody) (now : Int)
    (ts : List Task) :
    List.Forall₂ frameRel ts (findOneAndUpdate tid uid b now ts).2 := by
  induction ts with
  | nil => exact List.Forall₂.nil
  | cons t rest ih =>
    by_cases hc : (t.id == tid && t.user == uid) = true
    · simp only [findOneAndUpdate, hc, if_true]
      exact List.Forall₂.cons ⟨rfl, rfl, rfl, rfl⟩ (forall₂_frameRel_refl rest)
    · simp only [findOneAndUpdate, hc, if_false]
      exact List.Forall₂.cons ⟨rfl, rfl, rfl, rfl⟩ ih

/-! Claim theorems. -/

/-- C1: the claim says every task operation addressing a task by id answers
    404 and leaves the task unchanged when the task belongs to another
    user.  GET, PUT and PATCH-toggle do (their filters pair the id with the
    caller), but DELETE does not: `findByIdAndDelete` casts its object
    argument to the `_id` field alone, discarding the `user` scope, so the
    cross-user task owned by user 2 is deleted by caller 1 with a 200
    response.  The claim fails on the code; the spec's ownership scoping is
    clearly the intent and the delete call a slip. -/
theorem deleteTask_cross_user_bug :
    crossTask.user ≠ 1 ∧
    (getTask (some 1) 1 (Except.ok [crossTask])).1.status = 404 ∧
    (getTask (some 1) 1 (Except.ok [crossTask])).2 = Except.ok [crossTask] ∧
    (updateTask (some 1) 1 {} 5 (Except.ok [crossTask])).1.status = 404 ∧
    (updateTask (some 1) 1 {} 5 (Except.ok [crossTask])).2 = Except.ok [crossTask] ∧
    (toggleTaskCompletion (some 1) 1 5 (Except.ok [crossTask])).1.status = 404 ∧
    (toggleTaskCompletion (some 1) 1 5 (Except.ok [crossTask])).2 = Except.ok [crossTask] ∧
    (deleteTask (some 1) 1 (Except.ok [crossTask])).1.status = 200 ∧
    (deleteTask (some 1) 1 (Except.ok [crossTask])).2 = Except.ok [] := by
  decide

/-- C2: the claim says every task controller catches persistence faults
    locally and reports a generic 500; getTasks alone has no try/catch, so
    a rejected find escapes it (the result is the fault, not a response),
    while all six sibling controllers do downgrade the same fault to a
    500.  The spec's per-operation catch policy is clearly the intent and
    the missing try/catch a slip. -/
theorem getTasks_fault_escapes_bug :
    getTasks (some 1) {} (Except.error "db down") = Except.error "db down" ∧
    (createTask (some 1) { title := "x" } 9 0 (Except.error "db down")).1.status = 500 ∧
    (updateTask (some 1) 1 {} 0 (Except.error "db down")).1.status = 500 ∧
    (deleteTask (some 1) 1 (Except.error "db down")).1.status = 500 ∧
    (getTask (some 1) 1 (Except.error "db down")).1.status = 500 ∧
    (toggleTaskCompletion (some 1) 1 0 (Except.error "db down")).1.status = 500 ∧
    (getTaskStats (some 1) (Except.error "db down")).status = 500 := by
  decide

/-- C3: every task created through createTask is owned by the
    authenticated caller: the persisted document is `mkTask newId uid b
    now` whose user field is `uid`, whatever the body contains (including
    a `user` field, which the controller never reads); consequently every
    task in the store afterwards either was already there or is owned by
    the caller. -/
theorem createTask_owner_is_caller (uid : UserId) (b : CreateBody) (newId : TaskId)
    (now : Int) (ts : List Task) :
    (createTask (some uid) b newId now (Except.ok ts)).1.status = 201 ∧
    (createTask (some uid) b newId now (Except.ok ts)).1.data = some (mkTask newId uid b now) ∧
    (mkTask newId uid b now).user = uid ∧
    (createTask (some uid) b newId now (Except.ok ts)).2
      = Except.ok (ts ++ [mkTask newId uid b now]) ∧
    ∀ t2 ∈ ts ++ [mkTask newId uid b now], t2 ∈ ts ∨ t2.user = uid := by
  refine ⟨rfl, rfl, rfl, rfl, ?_⟩
  intro t2 ht2
  rcases List.mem_append.1 ht2 with h | h
  · exact Or.inl h
  · right
    rw [List.mem_singleton.1 h]
    rfl

/-- C3 witness: a body that tries to set user 9 still yields a task owned
    by caller 7. -/
theorem createTask_owner_is_caller_witness :
    (mkTask 1 7 { title := "a", user := some 9 } 0).user = 7 ∧
    ((mkTask 1 7 { title := "a", user := some 9 } 0) ∈ ([] : List Task) ∨
      (mkTask 1 7 { title := "a", user := some 9 } 0).user = 7) := by
  refine ⟨(createTask_owner_is_caller 7 { title := "a", user := some 9 } 1 0 []).2.2.1, ?_⟩
  exact (createTask_owner_is_caller 7 { title := "a", user := some 9 } 1 0 []).2.2.2.2
    (mkTask 1 7 { title := "a", user := some 9 } 0) (by simp)

/-- C4: toggling a task the caller owns flips exactly that task's completed
    boolean: the store keeps every other task untouched (the lists around
    the toggled task are unchanged) and the toggled task keeps every field
    except completed and the save-refreshed updatedAt timestamp (not a
    boolean); a second toggle restores the original completed value.  The
    id-uniqueness hypothesis is the mongo collection invariant on `_id`. -/
theorem toggleTaskCompletion_double_restores
    (uid : UserId) (tid : TaskId) (n1 n2 : Int) (ts : List Task) (t : Task)
    (huniq : ((ts.map (fun x => x.id))).Nodup)
    (hfind : findOneTask tid uid ts = some t) :
    ∃ l1 l2,
      ts = l1 ++ t :: l2 ∧
      (toggleTaskCompletion (some uid) tid n1 (Except.ok ts)).1.status = 200 ∧
      (toggleTaskCompletion (some uid) tid n1 (Except.ok ts)).1.data
        = some { t with completed := !t.completed, updatedAt := n1 } ∧
      (toggleTaskCompletion (some uid) tid n1 (Except.ok ts)).2
        = Except.ok (l1 ++ { t with completed := !t.completed, updatedAt := n1 } :: l2) ∧
      (toggleTaskCompletion (some uid) tid n2
          (Except.ok (l1 ++ { t with completed := !t.completed, updatedAt := n1 } :: l2))).2
        = Except.ok (l1 ++ { t with updatedAt := n2 } :: l2) := by
  have hfind0 : List.find? (fun x => x.id == tid && x.user == uid) ts = some t := hfind
  obtain ⟨l1, l2, rfl, hl1⟩ := find?_split _ ts t hfind0
  have hpt0 := List.find?_some hfind0
  have hpt : (t.id == tid && t.user == uid) = true := by simpa using hpt0
  have hids : ∀ x ∈ l1, (x.id == t.id) = false := nodup_ids_split l1 l2 t huniq
  have hfind2 : findOneTask tid uid
      (l1 ++ { t with completed := !t.completed, updatedAt := n1 } :: l2)
      = some { t with completed := !t.completed, updatedAt := n1 } :=
    find?_append_cons _ l1 l2 _ hl1 hpt
  refine ⟨l1, l2, rfl, ?_, ?_, ?_, ?_⟩
  · simp [toggleTaskCompletion, hfind]
  · simp [toggleTaskCompletion, hfind]
  · simp only [toggleTaskCompletion, hfind]
    exact congrArg Except.ok (replaceFirst_append_cons _ _ t l1 l2 hids (by simp))
  · simp only [toggleTaskCompletion, hfind2]
    refine congrArg Except.ok ?_
    simp only [Bool.not_not]
    exact replaceFirst_append_cons _ _ _ l1 l2 hids (by simp)

/-- C4 witness: toggling the completed fixture of user 4 twice. -/
theorem toggleTaskCompletion_double_restores_witness :
    ((([toggleFixture].map (fun x => x.id))).Nodup ∧
      findOneTask 1 4 [toggleFixture] = some toggleFixture) ∧
    (∃ l1 l2,
      [toggleFixture] = l1 ++ toggleFixture :: l2 ∧
      (toggleTaskCompletion (some 4) 1 7 (Except.ok [toggleFixture])).1.status = 200 ∧
      (toggleTaskCompletion (some 4) 1 7 (Except.ok [toggleFixture])).1.data
        = some { toggleFixture with completed := !toggleFixture.completed, updatedAt := 7 } ∧
      (toggleTaskCompletion (some 4) 1 7 (Except.ok [toggleFixture])).2
        = Except.ok (l1 ++ { toggleFixture with completed := !toggleFixture.completed, updatedAt := 7 } :: l2) ∧
      (toggleTaskCompletion (some 4) 1 9
          (Except.ok (l1 ++ { toggleFixture with completed := !toggleFixture.completed, updatedAt := 7 } :: l2))).2
        = Except.ok (l1 ++ { toggleFixture with updatedAt := 9 } :: l2)) :=
  ⟨⟨by decide, by decide⟩,
    toggleTaskCompletion_double_restores 4 1 7 9 [toggleFixture] toggleFixture
      (by decide) (by decide)⟩

/-- C5: at both creation and update, a dueDate that resolves to a
    timestamp is rejected with the field message "Due date must be in the
    future" exactly when the timestamp is at or before `now` — the
    wall-clock instant at which the custom validator executes, since the
    check calls `new Date()` itself — and a body whose remaining fields
    validate is accepted precisely when the timestamp is strictly after
    `now`. -/
theorem dueDate_validation_strict_future
    (b : RawCreateBody) (ub : RawUpdateBody) (now d : Int) :
    (b.dueDate = some (some d) →
      ((d ≤ now →
          "Due date must be in the future" ∈ createTaskValidationErrors b now ∧
          createTaskValidationErrors b now ≠ []) ∧
       (createTaskValidationErrors b now = [] → now < d) ∧
       (createTaskValidationErrors { b with dueDate := none } now = [] → now < d →
          createTaskValidationErrors b now = []))) ∧
    (ub.dueDate = some (some d) →
      ((d ≤ now →
          "Due date must be in the future" ∈ updateTaskValidationErrors ub now ∧
          updateTaskValidationErrors ub now ≠ []) ∧
       (updateTaskValidationErrors ub now = [] → now < d) ∧
       (updateTaskValidationErrors { ub with dueDate := none } now = [] → now < d →
          updateTaskValidationErrors ub now = []))) := by
  constructor
  · intro hdue
    refine ⟨?_, ?_, ?_⟩
    · intro hle
      have hmem : "Due date must be in the future" ∈ createTaskValidationErrors b now := by
        simp [createTaskValidationErrors, dueDateErrors, hdue, hle]
      exact ⟨hmem, List.ne_nil_of_mem hmem⟩
    · intro hnil
      by_contra hlt
      push_neg at hlt
      have hmem : "Due date must be in the future" ∈ createTaskValidationErrors b now := by
        simp [createTaskValidationErrors, dueDateErrors, hdue, hlt]
      rw [hnil] at hmem
      simp at hmem
    · intro hrest hlt
      have hD : dueDateErrors b.dueDate now = [] := by
        rw [hdue]
        simp [dueDateErrors, not_le.2 hlt]
      simp only [createTaskValidationErrors, dueDateErrors, List.append_nil] at hrest
      simp only [createTaskValidationErrors, hD, List.append_nil]
      simpa using hrest
  · intro hdue
    refine ⟨?_, ?_, ?_⟩
    · intro hle
      have hmem : "Due date must be in the future" ∈ updateTaskValidationErrors ub now := by
        simp [updateTaskValidationErrors, dueDateErrors, hdue, hle]
      exact ⟨hmem, List.ne_nil_of_mem hmem⟩
    · intro hnil
      by_contra hlt
      push_neg at hlt
      have hmem : "Due date must be in the future" ∈ updateTaskValidationErrors ub now := by
        simp [updateTaskValidationErrors, dueDateErrors, hdue, hlt]
      rw [hnil] at hmem
      simp at hmem
    · intro hrest hlt
      have hD : dueDateErrors ub.dueDate now = [] := by
        rw [hdue]
        simp [dueDateErrors, not_le.2 hlt]
      simp only [updateTaskValidationErrors, dueDateErrors, List.append_nil] at hrest
      simp only [updateTaskValidationErrors, hD, List.append_nil]
      simpa using hrest

/-- C5 witness: a due timestamp of 5 is rejected at validation time 10 for
    both creation and update, and a due timestamp of 99 at validation time
    10 is accepted for a creation body whose other fields validate. -/
theorem dueDate_validation_strict_future_witness :
    ("Due date must be in the future" ∈ createTaskValidationErrors rawCreateFix 10 ∧
      createTaskValidationErrors rawCreateFix 10 ≠ []) ∧
    ("Due date must be in the future" ∈ updateTaskValidationErrors rawUpdateFix 10 ∧
      updateTaskValidationErrors rawUpdateFix 10 ≠ []) ∧
    createTaskValidationErrors { rawCreateFix with dueDate := some (some 99) } 10 = [] ∧
    updateTaskValidationErrors { rawUpdateFix with dueDate := some (some 99) } 10 = [] := by
  refine ⟨?_, ?_, ?_, ?_⟩
  · exact ((dueDate_validation_strict_future rawCreateFix rawUpdateFix 10 5).1 rfl).1 (by decide)
  · exact ((dueDate_validation_strict_future rawCreateFix rawUpdateFix 10 5).2 rfl).1 (by decide)
  · exact ((dueDate_validation_strict_future
      { rawCreateFix with dueDate := some (some 99) } rawUpdateFix 10 99).1 rfl).2.2
      (by decide) (by decide)
  · exact ((dueDate_validation_strict_future rawCreateFix
      { rawUpdateFix with dueDate := some (some 99) } 10 99).2 rfl).2.2
      (by decide) (by decide)

/-- C6 counterexample: the password "A1 bbbb" (with a newline before the
    lowercase letters) has length at least 6 and contains a lowercase
    letter, an uppercase letter and a digit — the claim as stated says the
    password rules accept it — yet the implemented regex rejects it for
    registration and password change alike, because the `.` in the JS
    lookaheads does not cross a line terminator. -/
theorem password_rule_newline_counterexample :
    specPasswordOk "A1\nbbbb" = true ∧
    passwordErrors "A1\nbbbb" ≠ [] ∧
    newPasswordErrors "A1\nbbbb" ≠ [] := by
  decide

/-- C6 amended: the password rules (registration and change-password use
    the same two checks) accept exactly the passwords of length at least 6
    whose lowercase letter, uppercase letter and digit each occur before
    any line terminator; for passwords free of line terminators this is
    exactly the specified condition, and a password with no digit at all
    (resp. no lowercase, no uppercase) is always rejected. -/
theorem password_rule_characterization (p : String) :
    (passwordErrors p = [] ↔
      (6 ≤ p.length ∧
        (beforeFirstLineTerminator p).any isAsciiLower = true ∧
        (beforeFirstLineTerminator p).any isAsciiUpper = true ∧
        (beforeFirstLineTerminator p).any isAsciiDigit = true)) ∧
    (p.toList.all (fun c => !isJsLineTerminator c) = true →
      (passwordErrors p = [] ↔ specPasswordOk p = true)) ∧
    (newPasswordErrors p = [] ↔ passwordErrors p = []) ∧
    (p.toList.any isAsciiLower = false → passwordErrors p ≠ []) ∧
    (p.toList.any isAsciiUpper = false → passwordErrors p ≠ []) ∧
    (p.toList.any isAsciiDigit = false → passwordErrors p ≠ []) := by
  have hnil : passwordErrors p = [] ↔
      (6 ≤ p.length ∧ passwordRegexMatches p = true) := by
    unfold passwordErrors
    by_cases h6 : p.length < 6 <;> by_cases hr : passwordRegexMatches p <;>
      simp [h6, hr] <;> omega
  have hchar : passwordRegexMatches p = true ↔
      ((beforeFirstLineTerminator p).any isAsciiLower = true ∧
       (beforeFirstLineTerminator p).any isAsciiUpper = true ∧
       (beforeFirstLineTerminator p).any isAsciiDigit = true) := by
    simp only [passwordRegexMatches, Bool.and_eq_true, and_assoc]
  have hpre : ∀ r : Char → Bool, (beforeFirstLineTerminator p).any r = true →
      p.toList.any r = true := by
    intro r h
    rcases List.any_eq_true.1 h with ⟨c, hc, hrc⟩
    exact List.any_eq_true.2 ⟨c, mem_of_mem_takeWhile _ _ _ hc, hrc⟩
  refine ⟨?_, ?_, ?_, ?_, ?_, ?_⟩
  · rw [hnil, hchar]
  · intro hall
    have heq : beforeFirstLineTerminator p = p.toList := by
      unfold beforeFirstLineTerminator
      exact takeWhile_self_of_all _ _ (by simpa [List.all_eq_true] using hall)
    rw [hnil, hchar, heq]
    simp only [specPasswordOk, Bool.and_eq_true, and_assoc, decide_eq_true_eq]
  · unfold newPasswordErrors
    rw [hnil]
    by_cases h6 : p.length < 6 <;> by_cases hr : passwordRegexMatches p <;>
      simp [h6, hr] <;> omega
  · intro hno hcontra
    have := ((hnil.1 hcontra).2)
    have hlow := (hchar.1 this).1
    rw [hpre _ hlow] at hno
    cases hno
  · intro hno hcontra
    have := ((hnil.1 hcontra).2)
    have hup := (hchar.1 this).2.1
    rw [hpre _ hup] at hno
    cases hno
  · intro hno hcontra
    have := ((hnil.1 hcontra).2)
    have hdig := (hchar.1 this).2.2
    rw [hpre _ hdig] at hno
    cases hno

/-- C6 witness: the password "Abc123" is free of line terminators, and the
    implemented rule agrees with the specified condition on it; a password
    with no digit is rejected. -/
theorem password_rule_characterization_witness :
    ("Abc123".toList.all (fun c => !isJsLineTerminator c) = true ∧
      (passwordErrors "Abc123" = [] ↔ specPasswordOk "Abc123" = true)) ∧
    ("abcdef".toList.any isAsciiDigit = false ∧ passwordErrors "abcdef" ≠ []) :=
  ⟨⟨by decide, (password_rule_characterization "Abc123").2.1 (by decide)⟩,
    ⟨by decide, (password_rule_characterization "abcdef").2.2.2.2.2 (by decide)⟩⟩

/-- C7: when some stored user already has the requested email, register
    answers 400 with the duplicate-email message and the users collection
    is returned unchanged — the duplicate check runs before User.create, so
    no second record is created. -/
theorem register_duplicate_email_rejected (b : RegisterBody) (secret : Option String)
    (newId : UserId) (us : List User) (u : User) (hu : u ∈ us) (he : u.email = b.email) :
    register b secret newId (Except.ok us)
      = ({ status := 400, success := false,
           message := some "User with this email already exists", data := none },
         Except.ok us) := by
  rcases hfind : us.find? (fun v => v.email == b.email) with _ | v
  · exfalso
    have hnone := List.find?_eq_none.1 hfind u hu
    simp [he] at hnone
  · simp [register, hfind]

/-- C7 witness: registering a second "alice@x.com" against a store already
    holding Alice. -/
theorem register_duplicate_email_rejected_witness :
    aliceActive ∈ [aliceActive] ∧ aliceActive.email = "alice@x.com" ∧
    register { name := "Alice Again", email := "alice@x.com", password := "Abc123" }
        (some "s") 9 (Except.ok [aliceActive])
      = ({ status := 400, success := false,
           message := some "User with this email already exists", data := none },
         Except.ok [aliceActive]) :=
  ⟨by decide, rfl,
    register_duplicate_email_rejected
      { name := "Alice Again", email := "alice@x.com", password := "Abc123" }
      (some "s") 9 [aliceActive] aliceActive (by decide) rfl⟩

/-- C8: for a valid page and limit, getTasks answers 200 with the slice of
    the caller-scoped, createdAt-descending task list from offset
    (page-1)*limit of length at most limit (exactly
    min limit (n - offset)), and pagination metadata current = page,
    total = n, limit = limit and pages = the ceiling of n / limit (the
    least c with n ≤ limit * c). -/
theorem getTasks_pagination_correct (uid : UserId) (q : TaskQuery) (ts : List Task)
    (hp : 1 ≤ q.page) (hl : 1 ≤ q.limit) :
    getTasks (some uid) q (Except.ok ts)
      = Except.ok
          { status := 200, success := true, message := none,
            data := some
              { tasks := ((sortByCreatedAtDesc (ts.filter (matchesFilter uid q))).drop
                  ((q.page - 1) * q.limit)).take q.limit,
                pagination :=
                  { current := q.page,
                    pages := (ts.filter (matchesFilter uid q)).length ⌈/⌉ q.limit,
                    total := (ts.filter (matchesFilter uid q)).length,
                    limit := q.limit } } } ∧
    (((sortByCreatedAtDesc (ts.filter (matchesFilter uid q))).drop
        ((q.page - 1) * q.limit)).take q.limit).length
      = min q.limit ((ts.filter (matchesFilter uid q)).length - (q.page - 1) * q.limit) ∧
    (∀ c : Nat, (ts.filter (matchesFilter uid q)).length ⌈/⌉ q.limit ≤ c
        ↔ (ts.filter (matchesFilter uid q)).length ≤ q.limit * c) := by
  refine ⟨rfl, ?_, ?_⟩
  · rw [List.length_take, List.length_drop, length_sortByCreatedAtDesc]
  · intro c
    exact ceilDiv_le_iff_le_mul (lt_of_lt_of_le Nat.zero_lt_one hl)

/-- C8 witness: page 2 with limit 10 over the 15 tasks of user 3 returns
    the 5 oldest tasks and pagination pages = 2, total = 15. -/
theorem getTasks_pagination_correct_witness :
    (1:Nat) ≤ 2 ∧ (1:Nat) ≤ 10 ∧
    getTasks (some 3) { page := 2, limit := 10 } (Except.ok tasks15)
      = Except.ok
          { status := 200, success := true, message := none,
            data := some pageWitnessPayload } ∧
    pageWitnessPayload.tasks.length = 5 ∧
    pageWitnessPayload.pagination.pages = 2 ∧
    (((sortByCreatedAtDesc (tasks15.filter (matchesFilter 3 { page := 2, limit := 10 }))).drop
        10).take 10).length
      = min 10 ((tasks15.filter (matchesFilter 3 { page := 2, limit := 10 })).length - 10) := by
  refine ⟨by decide, by decide, by decide, by decide, by decide, ?_⟩
  exact (getTasks_pagination_correct 3 { page := 2, limit := 10 } tasks15
    (by decide) (by decide)).2.1

/-- C9 counterexample: a successful PUT whose body carries only a
    (validation-accepted) completed field leaves completed and all four
    updatable fields unchanged, yet the stored record still differs from
    the old one — findOneAndUpdate refreshes the updatedAt timestamp — so
    "only title, description, priority, and dueDate can differ" is false
    as stated. -/
theorem updateTask_changes_updatedAt_counterexample :
    (updateTask (some 5) 1 { completed := some true } 9 (Except.ok [frameTask])).1.status = 200 ∧
    (updateTask (some 5) 1 { completed := some true } 9 (Except.ok [frameTask])).2
      = Except.ok [{ frameTask with updatedAt := 9 }] ∧
    ({ frameTask with updatedAt := 9 }).completed = frameTask.completed ∧
    ({ frameTask with updatedAt := 9 }).title = frameTask.title ∧
    ({ frameTask with updatedAt := 9 }).description = frameTask.description ∧
    ({ frameTask with updatedAt := 9 }).priority = frameTask.priority ∧
    ({ frameTask with updatedAt := 9 }).dueDate = frameTask.dueDate ∧
    { frameTask with updatedAt := 9 } ≠ frameTask := by
  decide

/-- C9 amended: updateTask never changes a stored task's completed flag —
    nor its owner, id or createdAt — for any body, including one carrying a
    completed field; only title, description, priority, dueDate and the
    updatedAt timestamp can differ after the call. -/
theorem updateTask_frame_amended (uid : UserId) (tid : TaskId) (b : UpdateBody) (now : Int)
    (ts ts2 : List Task)
    (h : (updateTask (some uid) tid b now (Except.ok ts)).2 = Except.ok ts2) :
    List.Forall₂ frameRel ts ts2 := by
  rcases hfu : findOneAndUpdate tid uid b now ts with ⟨r1, r2⟩
  cases r1 with
  | none =>
    simp only [updateTask, hfu] at h
    obtain rfl : ts = ts2 := Except.ok.inj h
    exact forall₂_frameRel_refl ts
  | some t2 =>
    simp only [updateTask, hfu] at h
    obtain rfl : r2 = ts2 := Except.ok.inj h
    have hframe := findOneAndUpdate_frame tid uid b now ts
    rw [hfu] at hframe
    exact hframe

/-- C9 amended witness: the concrete update of the counterexample
    preserves completed, owner, id and createdAt of the stored task. -/
theorem updateTask_frame_amended_witness :
    List.Forall₂ frameRel [frameTask] [{ frameTask with updatedAt := 9 }] :=
  updateTask_frame_amended 5 1 { completed := some true } 9 [frameTask]
    [{ frameTask with updatedAt := 9 }] (by decide)

/-- C10: login answers the identical 401 response "Invalid email or
    password" in all three failure cases — unknown email, deactivated
    user, and wrong password — so the client cannot tell them apart, and a
    token is only ever issued for a stored user that matches the email and
    is active (a deactivated user can never obtain one). -/
theorem login_uniform_invalid (e pw : String) (secret : Option String) (us : List User) :
    ((∀ u ∈ us, u.email ≠ e) → login e pw secret (Except.ok us) = invalidLogin) ∧
    ((∀ u ∈ us, u.email = e → u.isActive = false) →
      login e pw secret (Except.ok us) = invalidLogin) ∧
    (∀ u, us.find? (fun v => v.email == e && v.isActive) = some u →
      comparePassword u.password pw = false →
      login e pw secret (Except.ok us) = invalidLogin) ∧
    (∀ pay, (login e pw secret (Except.ok us)).data = some pay →
      pay.user ∈ us ∧ pay.user.email = e ∧ pay.user.isActive = true) := by
  refine ⟨?_, ?_, ?_, ?_⟩
  · intro hno
    have hfind : us.find? (fun v => v.email == e && v.isActive) = none := by
      rw [List.find?_eq_none]
      intro x hx
      simp [hno x hx]
    simp [login, hfind, invalidLogin]
  · intro hinact
    have hfind : us.find? (fun v => v.email == e && v.isActive) = none := by
      rw [List.find?_eq_none]
      intro x hx
      by_cases hxe : x.email = e
      · simp [hxe, hinact x hx hxe]
      · simp [hxe]
    simp [login, hfind, invalidLogin]
  · intro u hfind hcmp
    simp [login, hfind, hcmp, invalidLogin]
  · intro pay hdata
    rcases hfind : us.find? (fun v => v.email == e && v.isActive) with _ | u
    · simp [login, hfind] at hdata
    · have hmem := List.mem_of_find?_eq_some hfind
      have hprop := List.find?_some hfind
      simp only [Bool.and_eq_true, beq_iff_eq] at hprop
      by_cases hcmp : comparePassword u.password pw
      · cases secret with
        | none => simp [login, hfind, hcmp, generateToken] at hdata
        | some s =>
          simp only [login, hfind, hcmp, generateToken, Bool.not_true, if_false] at hdata
          rw [show pay = { user := u, token := mkToken s u } from by
            exact Option.some.inj hdata.symm]
          exact ⟨hmem, hprop.1, hprop.2⟩
      · simp [login, hfind, hcmp] at hdata

/-- C10 witness: unknown email, deactivated Bob, and a wrong password all
    produce the identical 401 response; a successful login only hands a
    token to the active, email-matching Alice. -/
theorem login_uniform_invalid_witness :
    login "carol@x.com" "Right1" (some "s") (Except.ok [aliceActive]) = invalidLogin ∧
    login "bob@x.com" "Right1" (some "s") (Except.ok [bobInactive]) = invalidLogin ∧
    login "alice@x.com" "Wrong1" (some "s") (Except.ok [aliceActive]) = invalidLogin ∧
    (aliceActive ∈ [aliceActive] ∧ aliceActive.email = "alice@x.com" ∧
      aliceActive.isActive = true) :=
  ⟨(login_uniform_invalid "carol@x.com" "Right1" (some "s") [aliceActive]).1 (by decide),
   (login_uniform_invalid "bob@x.com" "Right1" (some "s") [bobInactive]).2.1 (by decide),
   (login_uniform_invalid "alice@x.com" "Wrong1" (some "s") [aliceActive]).2.2.1
     aliceActive (by decide) (by decide),
   (login_uniform_invalid "alice@x.com" "Right1" (some "s") [aliceActive]).2.2.2
     { user := aliceActive, token := mkToken "s" aliceActive } (by decide)⟩

end TaskApi
